import Mathlib

/-!
Verification of the shogun-drive Directory Synthesis & Transfer Engine
(`src/lib/drive-core.js`, `src/components/DriveApp.js`).

JavaScript strings are embedded as `List Char`; byte payloads as `List Nat`
with every element below 256.  Network calls (IPFS fetches, the relay SDK,
`localStorage`) are the suspension points of the single-threaded event loop,
so each operation is embedded as a pure function of the values those calls
return, passed in as parameters.
-/

namespace ShogunDrive

/-- JavaScript strings, embedded as lists of characters. -/
abbrev Str := List Char

/-- Byte payloads (each entry is a byte value below 256). -/
abbrev Bytes := List Nat

/-- JavaScript `a || b` on strings: the empty string is falsy. -/
def jsOr (a b : Str) : Str :=
  if a = [] then b else a

/-- `filePath.split("/").pop()`: the final path segment of a relative path
(drive-core.js lines 1001-1002 and 1195-1199). -/
def lastSegment (p : Str) : Str :=
  (p.splitOn '/').getLastD []

/-- One entry of a directory record's `files` array (drive-core.js lines
385-392): the stored relative path, display name and original name, any of
which may be the empty string (JavaScript `undefined`/`""`, both falsy). -/
structure FileMeta where
  path : Str
  name : Str
  originalName : Str
deriving DecidableEq, Repr

/-- `fileMeta.path || fileMeta.name`, the path used for filtering and for
fetching the member's content (drive-core.js lines 999 and 1016). -/
def metaPath (m : FileMeta) : Str :=
  jsOr m.path m.name

/-- `fileMeta.path || fileMeta.name || fileMeta.originalName`, the relative
path given to the rebuilt `File` object (drive-core.js lines 1032-1033),
which `uploadDirectory` preserves as the member's path in the new snapshot
(drive-core.js lines 290, 318, 385-392). -/
def memberRelativePath (m : FileMeta) : Str :=
  jsOr m.path (jsOr m.name m.originalName)

/-- Errors surfaced by the drive core (section 7 of the design). -/
inductive DriveError
  /-- "Auth token is required. Please set it in settings." /
      "Auth token or wallet connection is required." -/
  | authRequired
  /-- "File not found in directory" (drive-core.js line 1007). -/
  | memberNotFound
  /-- "Failed to retrieve remaining files from directory" (line 1069). -/
  | retrieveFailed
  /-- "Auth token is required for encryption/decryption" (lines 81, 109). -/
  | missingToken
  /-- "Decryption failed - invalid token or corrupted data" (line 120). -/
  | decryptionFailed
deriving DecidableEq, Repr

/-- The per-member content fetch `catFromDirectory(directoryCid, filePath)`
(drive-core.js lines 1023, 1178-1241), keyed by the normalized (final
segment) path.  `none` embeds a fetch that threw; `some []` a fetch that
returned a zero-byte blob.  Both are logged and the member skipped
(lines 1026-1029 and 1059-1065). -/
def fetchOk (fetch : Str → Option Bytes) (m : FileMeta) : Bool :=
  match fetch (lastSegment (metaPath m)) with
  | none => false
  | some b => !b.isEmpty

/-- Result of a successful directory synthesis: the relative paths handed to
the batch upload that produced the new snapshot, and whether the
empty-directory placeholder was used (drive-core.js lines 1091-1094,
460-476). -/
structure RemoveOutcome where
  uploadedPaths : List Str
  usedPlaceholder : Bool
deriving DecidableEq, Repr

/-- `removeFileFromDirectory(directoryCid, filePathToRemove,
existingFilesMetadata)` (drive-core.js lines 983-1170), embedded as a pure
function of the per-member fetch results.  `folderName` is the display name
resolved from the local cache (lines 1073-1087, defaulting to "folder").
Steps, in source order: auth gate (line 988); filter members whose final
path segment matches the target (lines 998-1004); `MemberNotFound` when the
filter removed nothing (lines 1006-1008); fetch each survivor, skipping
failed or empty fetches (lines 1013-1066); hard failure when every survivor
fetch failed (lines 1068-1070); the `.keep` placeholder directory when no
file remains (lines 1091-1094); otherwise rebuild via `uploadDirectory`,
which preserves each surviving member's relative path (lines 1097-1100). -/
def removeFileFromDirectory (hasAuthToken : Bool) (fetch : Str → Option Bytes)
    (folderName : Str) (filePathToRemove : Str)
    (existingFilesMetadata : List FileMeta) : Except DriveError RemoveOutcome :=
  if !hasAuthToken then .error .authRequired else
  let remainingFilesMetadata := existingFilesMetadata.filter fun m =>
    decide (lastSegment (metaPath m) ≠ lastSegment filePathToRemove)
  if remainingFilesMetadata.length = existingFilesMetadata.length then
    .error .memberNotFound
  else
    let allFiles := remainingFilesMetadata.filter (fetchOk fetch)
    if allFiles.isEmpty && !remainingFilesMetadata.isEmpty then
      .error .retrieveFailed
    else if allFiles.isEmpty then
      .ok { uploadedPaths := [folderName ++ "/.keep".data], usedPlaceholder := true }
    else
      .ok { uploadedPaths := allFiles.map memberRelativePath, usedPlaceholder := false }

/-! ## Encrypted file naming (drive-core.js `encryptFile`, lines 79-100) -/

/-- The fixed suffix marker appended to encrypted artifacts' names. -/
def encSuffix : Str := ".enc".data

/-- The name given to the file produced by `encryptFile` (drive-core.js
lines 90-92): `file.name.endsWith(".enc") ? file.name : file.name + ".enc"`. -/
def encryptedFileName (name : Str) : Str :=
  if encSuffix.isSuffixOf name then name else name ++ encSuffix

/-! ## Navigation state (DriveApp.js) -/

/-- One breadcrumb stack entry (DriveApp.js `currentPath` items, pushed at
lines 1222-1225 with the cid of the directory being left). -/
structure NavFrame where
  cid : Str
  name : Str
deriving DecidableEq, Repr

/-- The navigation state of `DriveApp`: `currentDirectoryCid` (the folder
the user is inside, `none` for root) and the breadcrumb stack
`currentPath`, whose entries hold the cids of the current folder's
ancestors (`handleFolderClick` pushes the cid of the folder being left,
lines 1201-1230; `navigateToPath` jumps to a stack entry's cid,
lines 1232-1246). -/
structure NavigationState where
  currentDirectoryCid : Option Str
  currentPath : List NavFrame
deriving DecidableEq, Repr

/-- `this.currentPath[this.currentPath.length - 1].cid = newCid`: rewrite
the cid of the last breadcrumb stack entry. -/
def setLastFrameCid : List NavFrame → Str → List NavFrame
  | [], _ => []
  | [f], newCid => [{ f with cid := newCid }]
  | f :: g :: rest, newCid => f :: setLastFrameCid (g :: rest) newCid

/-- The navigation repoint performed by `handleFileDelete` after
`removeFileFromDirectory` returns (DriveApp.js lines 1169-1183): when the
synthesis succeeded with a truthy new cid different from the old one, and
the user is currently inside the old directory, the current pointer is
moved to the new cid and, when the breadcrumb stack is non-empty, the cid
of its last entry is overwritten with the new cid. -/
def repointAfterRemove (nav : NavigationState)
    (oldDirectoryCid newDirectoryCid : Str) (resultSuccess : Bool) :
    NavigationState :=
  if resultSuccess ∧ newDirectoryCid ≠ [] ∧ newDirectoryCid ≠ oldDirectoryCid then
    if nav.currentDirectoryCid = some oldDirectoryCid then
      { currentDirectoryCid := some newDirectoryCid
        currentPath :=
          if nav.currentPath.length > 0 then
            setLastFrameCid nav.currentPath newDirectoryCid
          else nav.currentPath }
    else nav
  else nav

/-- The navigation repoint performed by `handleUpload` after
`addFilesToDirectory` returns (DriveApp.js lines 961-979).  There
`oldDirectoryCid` was read from `this.currentDirectoryCid` just before the
synthesis (line 954), so no equality guard is needed; the update is the
same as in `repointAfterRemove`. -/
def repointAfterAdd (nav : NavigationState) (newDirectoryCid : Str)
    (resultSuccess : Bool) : NavigationState :=
  match nav.currentDirectoryCid with
  | some oldDirectoryCid =>
    if resultSuccess ∧ newDirectoryCid ≠ [] ∧ newDirectoryCid ≠ oldDirectoryCid then
      { currentDirectoryCid := some newDirectoryCid
        currentPath :=
          if nav.currentPath.length > 0 then
            setLastFrameCid nav.currentPath newDirectoryCid
          else nav.currentPath }
    else nav
  | none => nav

/-! ## Download retry loop (drive-core.js `downloadFile`, lines 1280-1357) -/

/-- What one `fetch` attempt inside the download loop comes back with. -/
inductive AttemptOutcome
  /-- `response.ok`: the loop breaks and the body is consumed. -/
  | success
  /-- A completed response with a non-2xx status: the code reads the error
  text and throws `Download failed: <status> <text>` (lines 1309-1310). -/
  | httpStatus (status : Nat)
  /-- The `AbortController` fired at the 5-minute ceiling: the inner catch
  rethrows `Download timeout - file too large or connection too slow`
  (lines 1314-1318). -/
  | abortTimeout
  /-- A network-class failure whose message matches `HTTP2`,
  `Failed to fetch` or `ERR_HTTP2` (lines 1321-1326). -/
  | transientNetwork
  /-- Any other thrown error. -/
  | otherFailure
deriving DecidableEq, Repr

/-- The error a failed download surfaces, by class. -/
inductive DownloadError
  /-- `Download failed: <status> <text>`. -/
  | downloadFailed (status : Nat)
  /-- `Download timeout - file too large or connection too slow`. -/
  | downloadTimeout
  /-- The propagated network-class error (e.g. `Failed to fetch`). -/
  | transientNetwork
  /-- Any other propagated error. -/
  | otherFailure
deriving DecidableEq, Repr

/-- `const maxRetries = 3` (drive-core.js line 1281). -/
def maxRetries : Nat := 3

/-- The error a failing attempt outcome turns into on its way out of the
inner try/catch (an aborted attempt becomes the timeout error, line 1315;
everything else is rethrown as-is). -/
def attemptError : AttemptOutcome → DownloadError
  | .httpStatus s => .downloadFailed s
  | .abortTimeout => .downloadTimeout
  | .transientNetwork => .transientNetwork
  | _ => .otherFailure

/-- Observable trace of one `downloadFile` retry loop: how many attempts
were made, the waits (in ms) inserted between them, and the final result. -/
structure DownloadTrace where
  attemptsMade : Nat
  delaysMs : List Nat
  result : Except DownloadError Unit
deriving Repr

/-- One pass of the retry `for` loop (drive-core.js lines 1284-1349),
with `fuel = maxRetries - attempt` making the recursion structural.
A successful response breaks out of the loop.  A transient network-class
failure before the last attempt waits `1000 * (attempt + 1)` ms inside the
inner catch and continues (lines 1321-1336); every other failure is
rethrown to the outer catch, which throws it only on the last attempt and
otherwise waits the same `1000 * (attempt + 1)` ms and retries
(lines 1340-1348). -/
def retryLoop (f : Nat → AttemptOutcome) :
    Nat → Nat → List Nat → DownloadTrace
  | 0, attempt, delays =>
    { attemptsMade := attempt, delaysMs := delays.reverse
      result := .error .otherFailure }
  | fuel + 1, attempt, delays =>
    match f attempt with
    | .success =>
      { attemptsMade := attempt + 1, delaysMs := delays.reverse
        result := .ok () }
    | outcome =>
      if outcome = .transientNetwork ∧ attempt < maxRetries - 1 then
        retryLoop f fuel (attempt + 1) (1000 * (attempt + 1) :: delays)
      else if attempt = maxRetries - 1 then
        { attemptsMade := attempt + 1, delaysMs := delays.reverse
          result := .error (attemptError outcome) }
      else
        retryLoop f fuel (attempt + 1) (1000 * (attempt + 1) :: delays)

/-- The whole retry loop of `downloadFile` for a small (non-XHR) download,
as a function of what each attempt's `fetch` comes back with. -/
def downloadFileRetry (f : Nat → AttemptOutcome) : DownloadTrace :=
  retryLoop f maxRetries 0 []

/-! ## The local metadata cache (`shogun-drive-metadata-cache`) -/

/-- The system hash map: cid keyed metadata records.  Record contents are
embedded opaquely as strings (claims only compare whole records). -/
abbrev SystemHashMap := List (Str × Str)

/-- The one cache document persisted in `localStorage` under
`shogun-drive-metadata-cache`: a cid-keyed data map plus a single
timestamp used for staleness evaluation of the whole document. -/
structure MetadataCache where
  data : SystemHashMap
  timestamp : Nat
deriving DecidableEq, Repr

/-- Lookup of `data[cid]` in the cache map. -/
def cacheLookup (data : SystemHashMap) (cid : Str) : Option Str :=
  (data.find? fun kv => kv.1 == cid).map (·.2)

/-- JavaScript object assignment `data[hash] = record`: replaces any
existing entry for the key. -/
def cacheInsert (data : SystemHashMap) (cid record : Str) : SystemHashMap :=
  (cid, record) :: data.filter fun kv => decide (kv.1 ≠ cid)

/-- `delete parsed.data[cid]`. -/
def cacheErase (data : SystemHashMap) (cid : Str) : SystemHashMap :=
  data.filter fun kv => decide (kv.1 ≠ cid)

/-- The 5-minute staleness window, in milliseconds (drive-core.js
line 1788: `Date.now() - parsed.timestamp < 5 * 60 * 1000`). -/
def staleWindowMs : Nat := 5 * 60 * 1000

/-- The cached map `getFileList` starts from (drive-core.js lines
1779-1800): the cache document's data, but only when its timestamp is
truthy and younger than the 5-minute window; a stale or absent cache
contributes the empty map. -/
def cachedMapIfFresh (cache : Option MetadataCache) (now : Nat) :
    SystemHashMap :=
  match cache with
  | some c =>
    if c.timestamp ≠ 0 ∧ now - c.timestamp < staleWindowMs then c.data else []
  | none => []

/-- Observable trace of the metadata phase of one `getFileList` call:
the map the call's own result is computed from, how many background
fetches of the system hash map the call started, and the cache document
after the background refresh settles. -/
structure MetaReadTrace where
  usedMap : SystemHashMap
  remoteFetchesStarted : Nat
  cacheAfterRefresh : Option MetadataCache
deriving DecidableEq, Repr

/-- The metadata phase of `getFileList` in admin mode — the only mode that
consults the cache (drive-core.js lines 1774-1858).  The cached map is
loaded subject to the staleness window (lines 1779-1800); then
`fetchMetadataPromise` is created unconditionally — one background fetch
per call — and the call proceeds without awaiting it (lines 1802-1858),
so its own result is computed from the pre-refresh map.  When the remote
fetch succeeds (`remoteResult = some m`) its callback overwrites the cache
document with the fetched map and a fresh timestamp (lines 1823-1834);
on timeout or failure the cache is left as it was (lines 1845-1854). -/
def getFileListMetadataRead (cache : Option MetadataCache) (now : Nat)
    (remoteResult : Option SystemHashMap) (refreshCompletedAt : Nat) :
    MetaReadTrace :=
  { usedMap := cachedMapIfFresh cache now
    remoteFetchesStarted := 1
    cacheAfterRefresh :=
      match remoteResult with
      | some m => some { data := m, timestamp := refreshCompletedAt }
      | none => cache }

/-! ## `saveFileMetadata` (drive-core.js lines 1591-1648) -/

/-- What `this.sdk.uploads.saveSystemHash(metadata)` came back with:
`resolved success` embeds a resolved call whose `result.success` field is
`success`; `threw` embeds a rejected call. -/
inductive RemoteSaveResult
  | resolved (success : Bool)
  | threw
deriving DecidableEq, Repr

/-- Outcome of one `saveFileMetadata` call: the cache document afterwards,
and whether any error reached the caller. -/
structure SaveOutcome where
  cache : Option MetadataCache
  errorSurfaced : Bool
deriving DecidableEq, Repr

/-- `saveFileMetadata(metadata)` (drive-core.js lines 1591-1648).  Only
when the remote save resolves with `result.success` does the code enter
the branch that copies the complete record into the local cache document
with a fresh timestamp (lines 1598-1635).  When `result.success` is false
the `else` branch itself throws (it reads the undefined `response`
variable, lines 1636-1643) and control lands in the outer catch; when the
remote save rejects, the outer catch is reached directly.  The outer catch
only logs (lines 1644-1647), so no error ever reaches the caller — and in
both failure paths the cache is left untouched. -/
def saveFileMetadata (remote : RemoteSaveResult)
    (cache : Option MetadataCache) (hash record : Str) (now : Nat) :
    SaveOutcome :=
  match remote with
  | .resolved true =>
    let prevData := match cache with | some c => c.data | none => []
    { cache := some { data := cacheInsert prevData hash record, timestamp := now }
      errorSurfaced := false }
  | .resolved false => { cache := cache, errorSurfaced := false }
  | .threw => { cache := cache, errorSurfaced := false }

/-! ## `deleteFile` (drive-core.js lines 2103-2184) -/

/-- Whether an underlying removal call resolved or threw. -/
inductive StepResult
  | ok
  | failed
deriving DecidableEq, Repr

/-- `deleteFile(cid, metadata)` (drive-core.js lines 2103-2184), as a
function of the credential state, the outcomes of the pin removal and the
remote metadata removal, and the local cache document.  After the auth
gate (lines 2105-2107), each of the three removal steps runs in its own
try/catch whose catch only logs: the IPFS pin removal (lines 2111-2121,
admin mode only), the remote system-hash removal (lines 2127-2156) and
the local cache removal (lines 2159-2178).  Their outcomes never affect
the returned value, which is `true` whenever the auth gate passes (the
two step-outcome parameters are deliberately unread: the catches discard
them). -/
def deleteFile (authToken walletSignature : Option Str)
    (_pinRemoval _metadataRemoval : StepResult) (cacheReadFails : Bool)
    (cache : Option MetadataCache) (cid : Str) (now : Nat) :
    Except DriveError (Bool × Option MetadataCache) :=
  if authToken = none ∧ walletSignature = none then
    .error .authRequired
  else
    let cacheAfter :=
      if cacheReadFails then cache
      else
        match cache with
        | some c =>
          if (cacheLookup c.data cid).isSome then
            some { data := cacheErase c.data cid, timestamp := now }
          else some c
        | none => none
    .ok (true, cacheAfter)

/-! ## Download strategy selection (drive-core.js lines 1270-1278) -/

/-- The two transfer strategies of `downloadFile`. -/
inductive DownloadMethod
  /-- `downloadWithXHR` (lines 1527-1586): one `XMLHttpRequest` with
  `responseType = "blob"`, progress reported from XHR progress events,
  the response delivered as a single browser-buffered blob. -/
  | xhr
  /-- The `fetch` path (lines 1280-1521): the retry loop above, the body
  consumed through `response.body.getReader()` accumulating chunks and
  reporting per-chunk progress. -/
  | fetchReader
deriving DecidableEq, Repr

/-- `5 * 1024 * 1024` (drive-core.js line 1273). -/
def largeFileThreshold : Nat := 5 * 1024 * 1024

/-- Strategy dispatch (drive-core.js lines 1272-1278):
`const fileSize = metadata.size || 0; const isLargeFile = fileSize >
5 * 1024 * 1024; if (isLargeFile) return downloadWithXHR(...)`. -/
def chooseDownloadMethod (metadataSize : Option Nat) : DownloadMethod :=
  if metadataSize.getD 0 > largeFileThreshold then .xhr else .fetchReader

/-- The chunk accumulation of the fetch path's reader loop (drive-core.js
lines 1464-1495): chunks are pushed in arrival order and finally copied
into one contiguous buffer. -/
def accumulateChunks (chunks : List Bytes) : Bytes :=
  chunks.foldl (fun acc c => acc ++ c) []

/-- The per-chunk progress reports of the reader loop (drive-core.js
lines 1476-1486): after each chunk, `onProgress` receives the running
total of bytes read (`loaded`) and the declared `Content-Length`
(`total`). -/
def chunkProgress (contentLength : Nat) : List Bytes → Nat → List (Nat × Nat)
  | [], _ => []
  | c :: rest, sofar =>
    (sofar + c.length, contentLength) :: chunkProgress contentLength rest (sofar + c.length)

/-! ## Encoding codec: base64 and data URIs

`encryptFile` turns the file's bytes into a base64 data URL through
`FileReader.readAsDataURL` (drive-core.js lines 67-74, 88) and
`decryptBlob` recovers the bytes by fetching the decrypted data URL or by
`atob` (lines 124-136).  Those browser primitives are external
collaborators; they are embedded here as an executable base64 codec
following their platform specification. -/

/-- The base64 alphabet: index 0-25 ↦ `A`-`Z`, 26-51 ↦ `a`-`z`,
52-61 ↦ `0`-`9`, 62 ↦ `+`, 63 ↦ `/`. -/
def base64Alphabet (n : Nat) : Char :=
  if n < 26 then Char.ofNat (65 + n)
  else if n < 52 then Char.ofNat (71 + n)
  else if n < 62 then Char.ofNat (n - 4)
  else if n = 62 then '+' else '/'

/-- Value of a base64 digit character (inverse of `base64Alphabet`). -/
def base64DigitVal (c : Char) : Nat :=
  let n := c.toNat
  if 65 ≤ n ∧ n ≤ 90 then n - 65
  else if 97 ≤ n ∧ n ≤ 122 then n - 71
  else if 48 ≤ n ∧ n ≤ 57 then n + 4
  else if c = '+' then 62 else 63

/-- Base64 encoding of a byte list, with `=` padding. -/
def b64Encode : Bytes → List Char
  | [] => []
  | [a] =>
    [base64Alphabet (a / 4), base64Alphabet (a % 4 * 16), '=', '=']
  | [a, b] =>
    [base64Alphabet (a / 4), base64Alphabet (a % 4 * 16 + b / 16),
     base64Alphabet (b % 16 * 4), '=']
  | a :: b :: c :: rest =>
    base64Alphabet (a / 4) :: base64Alphabet (a % 4 * 16 + b / 16) ::
      base64Alphabet (b % 16 * 4 + c / 64) :: base64Alphabet (c % 64) ::
      b64Encode rest

/-- Base64 decoding of a character list (four characters per chunk, the
`=` padding marking a final one- or two-byte chunk). -/
def b64Decode : List Char → Bytes
  | c1 :: c2 :: c3 :: c4 :: rest =>
    if c3 = '=' then
      [base64DigitVal c1 * 4 + base64DigitVal c2 / 16]
    else if c4 = '=' then
      [base64DigitVal c1 * 4 + base64DigitVal c2 / 16,
       base64DigitVal c2 % 16 * 16 + base64DigitVal c3 / 4]
    else
      (base64DigitVal c1 * 4 + base64DigitVal c2 / 16) ::
        (base64DigitVal c2 % 16 * 16 + base64DigitVal c3 / 4) ::
        (base64DigitVal c3 % 4 * 64 + base64DigitVal c4) ::
        b64Decode rest
  | _ => []

/-- `FileReader.readAsDataURL` (drive-core.js `fileToBase64`, lines 67-74):
the file's bytes as `data:<contentType>;base64,<payload>`. -/
def fileToBase64 (contentType : Str) (content : Bytes) : Str :=
  "data:".data ++ contentType ++ ";base64,".data ++ b64Encode content

/-- Everything after the first comma (the payload part of a data URL). -/
def dropThroughComma : Str → Str
  | [] => []
  | c :: rest => if c = ',' then rest else dropThroughComma rest

/-- Fetching a `data:` URL (drive-core.js lines 124-126): the browser
decodes the base64 payload after the first comma back into bytes. -/
def dataUrlToBytes (s : Str) : Bytes :=
  b64Decode (dropThroughComma s)

/-- `decryptedBase64.split(",")[1] || decryptedBase64` followed by `atob`
and per-character `charCodeAt` (drive-core.js lines 128-135): base64
decoding of the part after the first comma, or of the whole string when
there is no non-empty second component. -/
def atobTailBytes (s : Str) : Bytes :=
  match (s.splitOn ',')[1]? with
  | some t => if t = [] then b64Decode s else b64Decode t
  | none => b64Decode s

/-! ## CryptoGate: `encryptFile` / `decryptBlob`

The SEA primitive itself is an external collaborator
(`encrypt(plaintext, secret) -> ciphertext`,
`decrypt(ciphertext, secret) -> plaintext?`), so the two functions are
parametrized by it. -/

/-- A file about to be encrypted: name, content type and raw bytes. -/
structure DFile where
  name : Str
  contentType : Str
  content : Bytes
deriving DecidableEq, Repr

/-- The artifact `encryptFile` produces (drive-core.js lines 94-96): a
`File` whose content is the SEA ciphertext text and whose type is
`text/plain`. -/
structure EncryptedFile where
  name : Str
  content : Str
deriving DecidableEq, Repr

/-- `encryptFile(file, token)` (drive-core.js lines 79-100): fail on an
empty token; otherwise read the file as a base64 data URL, encrypt that
text with the token, and wrap the ciphertext in a file named with the
`.enc` marker. -/
def encryptFile (seaEncrypt : Str → Str → Str) (file : DFile)
    (token : Str) : Except DriveError EncryptedFile :=
  if token = [] then .error .missingToken
  else
    .ok { name := encryptedFileName file.name
          content := seaEncrypt (fileToBase64 file.contentType file.content) token }

/-- `decryptBlob(encryptedBlob, token)` (drive-core.js lines 107-140):
fail on an empty token; decrypt the blob's text with the token, failing
when the primitive returns nothing; when the plaintext is a `data:` URL,
fetch it back into bytes, otherwise decode it with `atob`. -/
def decryptBlob (seaDecrypt : Str → Str → Option Str)
    (blob : EncryptedFile) (token : Str) : Except DriveError Bytes :=
  if token = [] then .error .missingToken
  else
    match seaDecrypt blob.content token with
    | none => .error .decryptionFailed
    | some decrypted =>
      if "data:".data.isPrefixOf decrypted then .ok (dataUrlToBytes decrypted)
      else .ok (atobTailBytes decrypted)

/-! ## Helper lemmas -/

theorem isPrefixOf_append_self (a b : Str) : a.isPrefixOf (a ++ b) = true := by
  induction a with
  | nil => simp [List.isPrefixOf]
  | cons x xs ih => simp [List.isPrefixOf, ih]

theorem isSuffixOf_append_self (a b : Str) : b.isSuffixOf (a ++ b) = true := by
  rw [List.isSuffixOf_iff_suffix]
  exact List.suffix_append a b

/-! ## C9 — encrypted file naming -/

/-- C9: the file produced by `encryptFile` has a name ending in `.enc`,
the name transformation is idempotent, a name already ending in `.enc` is
kept unchanged, and the transformation never produces a name ending in
`.enc.enc` from one that did not already end that way. -/
theorem encryptedFileName_spec (name : Str) :
    encSuffix.isSuffixOf (encryptedFileName name) = true
  ∧ encryptedFileName (encryptedFileName name) = encryptedFileName name
  ∧ (encSuffix.isSuffixOf name = true → encryptedFileName name = name)
  ∧ (".enc.enc".data.isSuffixOf name = false →
      ".enc.enc".data.isSuffixOf (encryptedFileName name) = false) := by
  by_cases hsuf : encSuffix.isSuffixOf name = true
  · refine ⟨?_, ?_, ?_, ?_⟩ <;>
      simp [encryptedFileName, hsuf]
  · have hname : encryptedFileName name = name ++ encSuffix := by
      simp [encryptedFileName, hsuf]
    have hends : encSuffix.isSuffixOf (name ++ encSuffix) = true :=
      isSuffixOf_append_self name encSuffix
    refine ⟨?_, ?_, ?_, ?_⟩
    · rw [hname]; exact hends
    · rw [hname]; simp [encryptedFileName, hends]
    · intro h; exact absurd h hsuf
    · intro hdd
      rw [hname]
      by_contra hcon
      have htrue : ".enc.enc".data.isSuffixOf (name ++ encSuffix) = true := by
        revert hcon
        cases ".enc.enc".data.isSuffixOf (name ++ encSuffix) <;> simp
      rw [List.isSuffixOf_iff_suffix] at htrue
      obtain ⟨t, ht⟩ := htrue
      have hsplit : (".enc.enc".data : Str) = encSuffix ++ encSuffix := by decide
      rw [hsplit, ← List.append_assoc] at ht
      have hteq : t ++ encSuffix = name := List.append_cancel_right ht
      have : encSuffix.isSuffixOf name = true := by
        rw [← hteq]; exact isSuffixOf_append_self t encSuffix
      exact hsuf this

/-- C9 witness: the spec applied at the concrete name `a.txt`, its
last-conjunct hypothesis discharged there. -/
theorem encryptedFileName_spec_w :
    ".enc.enc".data.isSuffixOf (encryptedFileName "a.txt".data) = false :=
  (encryptedFileName_spec "a.txt".data).2.2.2 (by decide)

/-! ## C6 — navigation repoint -/

/-- C6 (code bug exhibit): with the user inside directory `dirA` whose
breadcrumb stack holds one entry referencing the parent `parentP`
(`parentP ≠ dirA`, so no breadcrumb entry references `dirA`), a synthesis
`dirA → dirB` moves the current pointer to `dirB` but also overwrites the
parent's breadcrumb entry with `dirB` — in both the remove
(`handleFileDelete`) and the add (`handleUpload`) repoint code. -/
theorem repoint_breadcrumb_bug :
    repointAfterRemove
      { currentDirectoryCid := some "dirA".data
        currentPath := [{ cid := "parentP".data, name := "P".data }] }
      "dirA".data "dirB".data true
      = { currentDirectoryCid := some "dirB".data
          currentPath := [{ cid := "dirB".data, name := "P".data }] }
  ∧ ("parentP".data : Str) ≠ "dirA".data
  ∧ repointAfterAdd
      { currentDirectoryCid := some "dirA".data
        currentPath := [{ cid := "parentP".data, name := "P".data }] }
      "dirB".data true
      = { currentDirectoryCid := some "dirB".data
          currentPath := [{ cid := "dirB".data, name := "P".data }] } := by
  refine ⟨?_, by decide, ?_⟩ <;> decide

/-! ## C10 — deleteFile always resolves with true -/

/-- C10: whenever an auth token or a wallet signature is present,
`deleteFile` resolves with `true`, whatever the pin removal, the remote
metadata removal and the local cache removal did — each failure is caught
and logged internally. -/
theorem deleteFile_always_succeeds (authToken walletSignature : Option Str)
    (pinRemoval metadataRemoval : StepResult) (cacheReadFails : Bool)
    (cache : Option MetadataCache) (cid : Str) (now : Nat)
    (hcred : authToken ≠ none ∨ walletSignature ≠ none) :
    ∃ cacheAfter,
      deleteFile authToken walletSignature pinRemoval metadataRemoval
        cacheReadFails cache cid now = .ok (true, cacheAfter) := by
  have hgate : ¬(authToken = none ∧ walletSignature = none) := by
    rcases hcred with h | h <;> intro hc <;> [exact h hc.1; exact h hc.2]
  simp only [deleteFile, if_neg hgate]
  exact ⟨_, rfl⟩

/-- C10 witness: a wallet-signed delete in which the pin removal and the
metadata removal both threw and the cache read failed still resolves with
`true`. -/
theorem deleteFile_always_succeeds_w :
    ∃ cacheAfter,
      deleteFile none (some "sig".data) .failed .failed true none
        "cid".data 7 = .ok (true, cacheAfter) :=
  deleteFile_always_succeeds none (some "sig".data) .failed .failed true
    none "cid".data 7 (Or.inr (by decide))

/-! ## C4 — saveFileMetadata write-through -/

/-- C4 counterexample: a put whose remote save rejects (and one whose
remote save resolves unsuccessfully) leaves the local cache untouched, so
the record is not present in the cache afterwards — the claim promised
the local write succeeds even when the remote write fails. -/
theorem saveFileMetadata_localCache_cex :
    (saveFileMetadata .threw none "h1".data "rec".data 5).cache = none
  ∧ (saveFileMetadata (.resolved false) (some { data := [], timestamp := 1 })
      "h1".data "rec".data 5).cache = some { data := [], timestamp := 1 }
  ∧ (saveFileMetadata .threw none "h1".data "rec".data 5).errorSurfaced
      = false := by
  refine ⟨rfl, rfl, rfl⟩

/-- C4 (amended): `saveFileMetadata` never surfaces an error to the
caller; the record is copied into the local cache — with a fresh
timestamp — exactly when the remote save resolves successfully, and on
any remote failure the cache document is left unchanged. -/
theorem saveFileMetadata_spec (remote : RemoteSaveResult)
    (cache : Option MetadataCache) (hash record : Str) (now : Nat) :
    (saveFileMetadata remote cache hash record now).errorSurfaced = false
  ∧ (remote = .resolved true →
      ∃ c, (saveFileMetadata remote cache hash record now).cache = some c
        ∧ cacheLookup c.data hash = some record ∧ c.timestamp = now)
  ∧ (remote ≠ .resolved true →
      (saveFileMetadata remote cache hash record now).cache = cache) := by
  refine ⟨?_, ?_, ?_⟩
  · cases remote with
    | resolved success => cases success <;> rfl
    | threw => rfl
  · intro hr
    subst hr
    refine ⟨_, rfl, ?_, rfl⟩
    simp [cacheLookup, cacheInsert, List.find?]
  · intro hr
    cases remote with
    | resolved success =>
      cases success
      · rfl
      · exact absurd rfl hr
    | threw => rfl

/-- C4 witness: the amended spec applied to a put whose remote save
rejected, its hypothesis discharged at that concrete input. -/
theorem saveFileMetadata_spec_w :
    (saveFileMetadata .threw (some { data := [], timestamp := 3 })
        "h2".data "rec".data 9).cache = some { data := [], timestamp := 3 } :=
  (saveFileMetadata_spec .threw (some { data := [], timestamp := 3 })
    "h2".data "rec".data 9).2.2 (by decide)

/-! ## C2 — metadata cache staleness -/

/-- C2 counterexample: a `getFileList` metadata read issued 500 ms after
the cache was written — well inside the 5-minute window — still starts
one background remote fetch of the system hash map (the claim said such a
read never triggers one); and a read issued exactly at the window does
not return the old cached value: it proceeds with the empty map. -/
theorem getFileList_cache_cex :
    (500 < staleWindowMs
      ∧ (getFileListMetadataRead
          (some { data := [("c1".data, "m1".data)], timestamp := 1000 })
          1500 none 1501).remoteFetchesStarted = 1)
  ∧ (¬ (1000 + staleWindowMs) - 1000 < staleWindowMs
      ∧ (getFileListMetadataRead
          (some { data := [("c1".data, "m1".data)], timestamp := 1000 })
          (1000 + staleWindowMs) none (1000 + staleWindowMs)).usedMap = []) := by
  refine ⟨⟨by decide, rfl⟩, ⟨by omega, ?_⟩⟩
  simp [getFileListMetadataRead, cachedMapIfFresh, staleWindowMs]

/-- C2 (amended): every `getFileList` metadata read — fresh or stale —
starts exactly one non-blocking background remote fetch; the cached map
is used for the call's own result only when the cache's timestamp is
truthy and younger than the 5-minute window, a stale cache's value being
discarded rather than returned; and the background refresh overwrites the
cache on success and leaves it unchanged on failure, taking effect only
for subsequent reads. -/
theorem getFileList_cache_spec (cache : Option MetadataCache) (now : Nat)
    (remoteResult : Option SystemHashMap) (refreshCompletedAt : Nat) :
    (getFileListMetadataRead cache now remoteResult
        refreshCompletedAt).remoteFetchesStarted = 1
  ∧ (∀ c, cache = some c → c.timestamp ≠ 0 →
      now - c.timestamp < staleWindowMs →
      (getFileListMetadataRead cache now remoteResult
          refreshCompletedAt).usedMap = c.data)
  ∧ (∀ c, cache = some c → staleWindowMs ≤ now - c.timestamp →
      (getFileListMetadataRead cache now remoteResult
          refreshCompletedAt).usedMap = [])
  ∧ (∀ m, remoteResult = some m →
      (getFileListMetadataRead cache now remoteResult
          refreshCompletedAt).cacheAfterRefresh
        = some { data := m, timestamp := refreshCompletedAt })
  ∧ (remoteResult = none →
      (getFileListMetadataRead cache now remoteResult
          refreshCompletedAt).cacheAfterRefresh = cache) := by
  refine ⟨rfl, ?_, ?_, ?_, ?_⟩
  · intro c hc ht hfresh
    subst hc
    simp [getFileListMetadataRead, cachedMapIfFresh, ht, hfresh]
  · intro c hc hstale
    subst hc
    have : ¬ now - c.timestamp < staleWindowMs := by omega
    simp [getFileListMetadataRead, cachedMapIfFresh, this]
  · intro m hm
    subst hm
    rfl
  · intro hm
    subst hm
    rfl

/-- C2 witness: the amended spec applied to a fresh cache read. -/
theorem getFileList_cache_spec_w :
    (getFileListMetadataRead
        (some { data := [("c2".data, "m2".data)], timestamp := 10 })
        20 none 21).usedMap = [("c2".data, "m2".data)] :=
  (getFileList_cache_spec
      (some { data := [("c2".data, "m2".data)], timestamp := 10 })
      20 none 21).2.1 _ rfl (by decide) (by decide)

/-! ## C1 — removal member set -/

/-- C1 counterexample: directory members `a/f.txt`, `f.txt`, `g.txt`;
removing `f.txt` with every content fetch succeeding non-empty yields a
snapshot whose member set is `[g.txt]` — the member `a/f.txt`, whose
relative path differs from the removed path and whose fetch succeeded, is
dropped as well because only final path segments are compared, so the
result is not the original set minus the removed path. -/
theorem removeFileFromDirectory_basename_cex :
    removeFileFromDirectory true (fun _ => some [49]) "folder".data
      "f.txt".data
      [ { path := "a/f.txt".data, name := [], originalName := [] },
        { path := "f.txt".data, name := [], originalName := [] },
        { path := "g.txt".data, name := [], originalName := [] } ]
      = .ok { uploadedPaths := ["g.txt".data], usedPlaceholder := false }
  ∧ ("a/f.txt".data : Str) ≠ "f.txt".data
  ∧ fetchOk (fun _ => some [49])
      { path := "a/f.txt".data, name := [], originalName := [] } = true := by
  refine ⟨rfl, by decide, rfl⟩

/-- C1 (amended): when no member's final path segment matches the removed
path's final segment the operation fails with `MemberNotFound` and no
snapshot is produced; and when it succeeds without the empty-directory
placeholder, the new snapshot's member set is exactly the original
members minus every member whose final path segment equals the removed
path's final segment, minus any member whose content fetch failed or
returned zero bytes. -/
theorem removeFileFromDirectory_filter_spec (fetch : Str → Option Bytes)
    (folderName filePathToRemove : Str) (existing : List FileMeta) :
    ((∀ m ∈ existing,
        lastSegment (metaPath m) ≠ lastSegment filePathToRemove) →
      removeFileFromDirectory true fetch folderName filePathToRemove existing
        = .error .memberNotFound)
  ∧ (∀ out,
      removeFileFromDirectory true fetch folderName filePathToRemove existing
          = .ok out →
      out.usedPlaceholder = false →
      out.uploadedPaths =
        ((existing.filter fun m =>
            decide (lastSegment (metaPath m)
              ≠ lastSegment filePathToRemove)).filter
          (fetchOk fetch)).map memberRelativePath) := by
  constructor
  · intro h
    have hall : existing.filter (fun m =>
        decide (lastSegment (metaPath m) ≠ lastSegment filePathToRemove))
          = existing :=
      List.filter_eq_self.mpr fun m hm => decide_eq_true (h m hm)
    unfold removeFileFromDirectory
    simp only [Bool.not_true, Bool.false_eq_true, if_false]
    rw [hall, if_pos rfl]
  · intro out hout hpl
    unfold removeFileFromDirectory at hout
    simp only [Bool.not_true, Bool.false_eq_true, if_false] at hout
    split at hout
    · exact absurd hout (by simp)
    · split at hout
      · exact absurd hout (by simp)
      · split at hout
        · obtain rfl : _ = out := Except.ok.inj hout
          simp at hpl
        · obtain rfl : _ = out := Except.ok.inj hout
          rfl

/-- C1 witness: the amended spec's `MemberNotFound` half applied at a
directory that does not contain the removed path. -/
theorem removeFileFromDirectory_filter_spec_w :
    removeFileFromDirectory true (fun _ => some [49]) "d".data "x.txt".data
      [ { path := "y.txt".data, name := [], originalName := [] } ]
      = .error .memberNotFound :=
  (removeFileFromDirectory_filter_spec (fun _ => some [49]) "d".data
    "x.txt".data
    [ { path := "y.txt".data, name := [], originalName := [] } ]).1
    (by decide)

/-! ## C5 — empty-after-removal placeholder -/

/-- C5: removing the last remaining member of a directory yields the
valid placeholder snapshot — a directory whose single member is the
`folderName/.keep` marker — rather than an error; and every successful
`removeFileFromDirectory` issues a batch upload with a non-empty member
list, so a zero-member directory upload is never issued. -/
theorem removeFileFromDirectory_placeholder_spec
    (fetch : Str → Option Bytes) (folderName filePathToRemove : Str)
    (m : FileMeta)
    (hmatch : lastSegment (metaPath m) = lastSegment filePathToRemove) :
    removeFileFromDirectory true fetch folderName filePathToRemove [m]
      = .ok { uploadedPaths := [folderName ++ "/.keep".data]
              usedPlaceholder := true }
  ∧ ∀ (fetch' : Str → Option Bytes) (folderName' filePathToRemove' : Str)
      (existing' : List FileMeta) out,
      removeFileFromDirectory true fetch' folderName' filePathToRemove'
          existing' = .ok out →
      out.uploadedPaths ≠ [] := by
  constructor
  · simp [removeFileFromDirectory, hmatch]
  · intro fetch' folderName' filePathToRemove' existing' out hout
    unfold removeFileFromDirectory at hout
    simp only [Bool.not_true, Bool.false_eq_true, if_false] at hout
    split at hout
    · exact absurd hout (by simp)
    · split at hout
      · exact absurd hout (by simp)
      · rename_i hAllEmpty
        split at hout
        · obtain rfl : _ = out := Except.ok.inj hout
          simp
        · rename_i hNonEmpty
          obtain rfl : _ = out := Except.ok.inj hout
          simp only [ne_eq, List.map_eq_nil_iff]
          intro hnil
          rw [hnil] at hNonEmpty
          exact hNonEmpty rfl

/-- C5 witness: removing the only member of a one-member directory, the
hypothesis discharged at that concrete input. -/
theorem removeFileFromDirectory_placeholder_spec_w :
    removeFileFromDirectory true (fun _ => some [49]) "d".data "x.txt".data
      [ { path := "x.txt".data, name := [], originalName := [] } ]
      = .ok { uploadedPaths := ["d".data ++ "/.keep".data]
              usedPlaceholder := true } :=
  (removeFileFromDirectory_placeholder_spec (fun _ => some [49]) "d".data
    "x.txt".data { path := "x.txt".data, name := [], originalName := [] }
    (by decide)).1

/-! ## C3 — download retry loop -/

/-- A failing attempt that is not the last one is always followed by a
wait of `1000 * (attempt + 1)` ms and another attempt, whatever the
failure class: transient failures retry from the inner catch,
everything else from the outer catch. -/
theorem retryLoop_step (f : Nat → AttemptOutcome) (fuel attempt : Nat)
    (delays : List Nat) (hfail : f attempt ≠ .success)
    (hlast : attempt ≠ maxRetries - 1) :
    retryLoop f (fuel + 1) attempt delays
      = retryLoop f fuel (attempt + 1) (1000 * (attempt + 1) :: delays) := by
  cases h : f attempt with
  | success => exact absurd h hfail
  | httpStatus s => simp [retryLoop, h, hlast]
  | abortTimeout => simp [retryLoop, h, hlast]
  | transientNetwork =>
    by_cases hlt : attempt < maxRetries - 1 <;>
      simp [retryLoop, h, hlast, hlt]
  | otherFailure => simp [retryLoop, h, hlast]

/-- A failing last attempt ends the loop with the (transformed) error of
that attempt. -/
theorem retryLoop_last (f : Nat → AttemptOutcome) (delays : List Nat)
    (hfail : f 2 ≠ .success) :
    retryLoop f 1 2 delays
      = { attemptsMade := 3, delaysMs := delays.reverse
          result := .error (attemptError (f 2)) } := by
  cases h : f 2 with
  | success => exact absurd h hfail
  | httpStatus s => simp [retryLoop, h, maxRetries, attemptError]
  | abortTimeout => simp [retryLoop, h, maxRetries, attemptError]
  | transientNetwork => simp [retryLoop, h, maxRetries, attemptError]
  | otherFailure => simp [retryLoop, h, maxRetries, attemptError]

/-- C3 counterexample: a download whose first attempt comes back as a
completed 404 response and whose second attempt succeeds makes two
attempts with a 1-second wait in between — the completed non-2xx
response was retried, and the download even ends up succeeding. -/
theorem downloadFile_nonOk_retried_cex :
    (downloadFileRetry fun n =>
        if n = 0 then .httpStatus 404 else .success).attemptsMade = 2
  ∧ (downloadFileRetry fun n =>
        if n = 0 then .httpStatus 404 else .success).delaysMs = [1000]
  ∧ (downloadFileRetry fun n =>
        if n = 0 then .httpStatus 404 else .success).result = .ok () := by
  refine ⟨rfl, rfl, rfl⟩

/-- C3 (amended): a download whose every attempt fails — with any mix of
failure classes: transient network errors, completed non-2xx responses,
timeouts — makes exactly 3 attempts separated by waits of 1 s and 2 s
(1 second times the 1-based attempt number) and then fails with the last
attempt's error: the timeout error for an aborted attempt, the
`Download failed` error for a non-2xx response, and the propagated
network error itself for a transient failure. -/
theorem downloadFile_retry_spec (f : Nat → AttemptOutcome)
    (hfail : ∀ i, i < maxRetries → f i ≠ .success) :
    downloadFileRetry f
      = { attemptsMade := 3, delaysMs := [1000, 2000]
          result := .error (attemptError (f 2)) } := by
  have h0 := hfail 0 (by decide)
  have h1 := hfail 1 (by decide)
  have h2 := hfail 2 (by decide)
  rw [show downloadFileRetry f = retryLoop f 3 0 [] from rfl,
    retryLoop_step f 2 0 [] h0 (by decide)]
  rw [show retryLoop f 2 (0 + 1) (1000 * (0 + 1) :: [])
      = retryLoop f 2 1 [1000] from rfl,
    retryLoop_step f 1 1 [1000] h1 (by decide)]
  rw [show retryLoop f 1 (1 + 1) (1000 * (1 + 1) :: [1000])
      = retryLoop f 1 2 [2000, 1000] from rfl,
    retryLoop_last f [2000, 1000] h2]
  rfl

/-- C3 witness: every attempt failing with a transient network error
yields exactly 3 attempts, 1 s and 2 s waits, and the propagated network
error. -/
theorem downloadFile_retry_spec_w :
    downloadFileRetry (fun _ => .transientNetwork)
      = { attemptsMade := 3, delaysMs := [1000, 2000]
          result := .error .transientNetwork } :=
  downloadFile_retry_spec (fun _ => .transientNetwork)
    (fun _ _ h => AttemptOutcome.noConfusion h)

/-! ## C8 — download strategy selection -/

theorem accumulateChunks_eq_flatten (chunks : List Bytes) :
    accumulateChunks chunks = chunks.flatten := by
  suffices h : ∀ acc : Bytes,
      chunks.foldl (fun a c => a ++ c) acc = acc ++ chunks.flatten by
    simpa using h []
  induction chunks with
  | nil => intro acc; simp
  | cons c rest ih => intro acc; simp [List.foldl_cons, ih]

theorem chunkProgress_length (total s : Nat) (chunks : List Bytes) :
    (chunkProgress total chunks s).length = chunks.length := by
  induction chunks generalizing s with
  | nil => rfl
  | cons c rest ih => simp [chunkProgress, ih]

theorem chunkProgress_total (total s : Nat) (chunks : List Bytes) :
    ∀ pr ∈ chunkProgress total chunks s, pr.2 = total := by
  induction chunks generalizing s with
  | nil => intro pr hpr; cases hpr
  | cons c rest ih =>
    intro pr hpr
    simp only [chunkProgress, List.mem_cons] at hpr
    rcases hpr with h | h
    · rw [h]
    · exact ih _ pr h

theorem chunkProgress_loaded (total : Nat) :
    ∀ (chunks : List Bytes) (s i : Nat) (hi : i < chunks.length),
      ((chunkProgress total chunks s).get
          ⟨i, by rw [chunkProgress_length]; exact hi⟩).1
        = s + ((chunks.take (i + 1)).flatten).length := by
  intro chunks
  induction chunks with
  | nil => intro s i hi; cases hi
  | cons c rest ih =>
    intro s i hi
    cases i with
    | zero => simp [chunkProgress]
    | succ j =>
      have hj : j < rest.length := by simpa using hi
      have := ih (s + c.length) j hj
      simp only [chunkProgress, List.get_cons_succ, this, List.take_succ_cons,
        List.flatten_cons, List.length_append]
      omega

/-- C8 counterexample: a download whose declared size is exactly 5 MB
takes the `fetch` reader path, the same strategy as every smaller size —
not the large-file strategy — while a size just above 5 MB takes the XHR
path, which is not the chunk-accumulating streaming reader. -/
theorem downloadFile_strategy_cex :
    chooseDownloadMethod (some (5 * 1024 * 1024)) = .fetchReader
  ∧ chooseDownloadMethod (some (5 * 1024 * 1024 + 1)) = .xhr
  ∧ DownloadMethod.xhr ≠ .fetchReader := by
  refine ⟨rfl, rfl, by decide⟩

/-- C8 (amended): the strategy is chosen by the declared size with a
strict threshold — strictly above 5 MB the XHR blob download (one
browser-buffered response, progress from XHR events), at or below 5 MB
(and for an undeclared size) the `fetch` path, which is the one whose
reader accumulates chunks and reports per-chunk progress: one
`{loaded, total}` event per chunk, `total` the declared content length
and `loaded` the bytes accumulated so far; in particular a download of
exactly 5 MB uses the `fetch` reader path. -/
theorem downloadFile_strategy_spec (size total : Nat) (chunks : List Bytes) :
    (size ≤ largeFileThreshold →
      chooseDownloadMethod (some size) = .fetchReader)
  ∧ (largeFileThreshold < size → chooseDownloadMethod (some size) = .xhr)
  ∧ chooseDownloadMethod none = .fetchReader
  ∧ accumulateChunks chunks = chunks.flatten
  ∧ (chunkProgress total chunks 0).length = chunks.length
  ∧ (∀ pr ∈ chunkProgress total chunks 0, pr.2 = total)
  ∧ (∀ i, (hi : i < chunks.length) →
      ((chunkProgress total chunks 0).get
          ⟨i, by rw [chunkProgress_length]; exact hi⟩).1
        = ((chunks.take (i + 1)).flatten).length) := by
  refine ⟨?_, ?_, rfl, accumulateChunks_eq_flatten chunks,
    chunkProgress_length total 0 chunks, chunkProgress_total total 0 chunks,
    ?_⟩
  · intro hle
    simp only [chooseDownloadMethod, Option.getD_some, gt_iff_lt]
    rw [if_neg (by omega)]
  · intro hlt
    simp only [chooseDownloadMethod, Option.getD_some, gt_iff_lt]
    rw [if_pos (by omega)]
  · intro i hi
    simpa using chunkProgress_loaded total chunks 0 i hi

/-- C8 witness: the amended spec applied at the exact 5 MB boundary. -/
theorem downloadFile_strategy_spec_w :
    chooseDownloadMethod (some (5 * 1024 * 1024)) = .fetchReader :=
  (downloadFile_strategy_spec (5 * 1024 * 1024) 0 []).1 (by decide)

/-! ## C7 — encrypt/decrypt round trip -/

theorem base64DigitVal_alphabet {n : Nat} (h : n < 64) :
    base64DigitVal (base64Alphabet n) = n :=
  (by decide : ∀ m : Fin 64, base64DigitVal (base64Alphabet m.val) = m.val)
    ⟨n, h⟩

theorem base64Alphabet_ne_pad {n : Nat} (h : n < 64) :
    base64Alphabet n ≠ '=' :=
  (by decide : ∀ m : Fin 64, base64Alphabet m.val ≠ '=') ⟨n, h⟩

/-- Base64 decoding is a left inverse of base64 encoding on byte lists. -/
theorem b64_roundtrip :
    ∀ l : Bytes, (∀ x ∈ l, x < 256) → b64Decode (b64Encode l) = l
  | [], _ => rfl
  | [a], h => by
    have ha : a < 256 := h a (by simp)
    rw [b64Encode, b64Decode, if_pos rfl,
      base64DigitVal_alphabet (by omega),
      base64DigitVal_alphabet (by omega)]
    simp only [List.cons.injEq, and_true]
    omega
  | [a, b], h => by
    have ha : a < 256 := h a (by simp)
    have hb : b < 256 := h b (by simp)
    rw [b64Encode, b64Decode,
      if_neg (base64Alphabet_ne_pad (by omega : b % 16 * 4 < 64)),
      if_pos rfl,
      base64DigitVal_alphabet (by omega),
      base64DigitVal_alphabet (by omega),
      base64DigitVal_alphabet (by omega)]
    simp only [List.cons.injEq, and_true]
    omega
  | a :: b :: c :: rest, h => by
    have ha : a < 256 := h a (by simp)
    have hb : b < 256 := h b (by simp)
    have hc : c < 256 := h c (by simp)
    have hrest : ∀ x ∈ rest, x < 256 := fun x hx => h x (by simp [hx])
    rw [b64Encode, b64Decode,
      if_neg (base64Alphabet_ne_pad (by omega : b % 16 * 4 + c / 64 < 64)),
      if_neg (base64Alphabet_ne_pad (by omega : c % 64 < 64)),
      base64DigitVal_alphabet (by omega),
      base64DigitVal_alphabet (by omega),
      base64DigitVal_alphabet (by omega),
      base64DigitVal_alphabet (by omega),
      b64_roundtrip rest hrest]
    simp only [List.cons.injEq, and_true]
    refine ⟨by omega, by omega, by omega⟩

theorem dropThroughComma_append (pre post : Str) (h : ',' ∉ pre) :
    dropThroughComma (pre ++ ',' :: post) = post := by
  induction pre with
  | nil => simp [dropThroughComma]
  | cons c rest ih =>
    have hcne : c ≠ ',' := fun hcc => h (hcc ▸ List.mem_cons_self c rest)
    have hrest : ',' ∉ rest := fun hm => h (List.mem_cons_of_mem c hm)
    simp [dropThroughComma, hcne, ih hrest]

/-- C7: for every byte payload and non-empty secret, decrypting the file
produced by `encryptFile` with the same secret recovers exactly the
original content — given the external primitive's interface contract
`decrypt(encrypt(t, s), s) = t`, a content type free of commas (so the
data URL parses back at its first comma), and byte values below 256. -/
theorem encryptFile_decryptBlob_roundtrip
    (seaEncrypt : Str → Str → Str) (seaDecrypt : Str → Str → Option Str)
    (hprim : ∀ plaintext secret,
      seaDecrypt (seaEncrypt plaintext secret) secret = some plaintext)
    (file : DFile) (token : Str) (htoken : token ≠ [])
    (hbytes : ∀ x ∈ file.content, x < 256)
    (hct : ',' ∉ file.contentType) :
    ∀ ef, encryptFile seaEncrypt file token = .ok ef →
      decryptBlob seaDecrypt ef token = .ok file.content := by
  intro ef hef
  unfold encryptFile at hef
  rw [if_neg htoken] at hef
  obtain rfl : _ = ef := Except.ok.inj hef
  unfold decryptBlob
  rw [if_neg htoken]
  simp only [hprim]
  have hparts : fileToBase64 file.contentType file.content
      = ("data:".data ++ file.contentType ++ ";base64".data)
        ++ ',' :: b64Encode file.content := by
    unfold fileToBase64
    have hcomma : (";base64,".data : Str)
        = ";base64".data ++ ',' :: [] := by decide
    rw [hcomma]
    simp [List.append_assoc]
  have hdata : ("data:".data).isPrefixOf
      (fileToBase64 file.contentType file.content) = true := by
    unfold fileToBase64
    rw [List.append_assoc, List.append_assoc]
    exact isPrefixOf_append_self _ _
  rw [if_pos hdata]
  have hpre : ',' ∉ "data:".data ++ file.contentType ++ ";base64".data := by
    intro hmem
    rcases List.mem_append.mp hmem with hmem | hmem
    · rcases List.mem_append.mp hmem with hmem | hmem
      · exact absurd hmem (by decide)
      · exact hct hmem
    · exact absurd hmem (by decide)
  have hdrop : dataUrlToBytes (fileToBase64 file.contentType file.content)
      = b64Decode (b64Encode file.content) := by
    unfold dataUrlToBytes
    rw [hparts, dropThroughComma_append _ _ hpre]
  rw [hdrop, b64_roundtrip file.content hbytes]

/-- C7 witness: the round trip applied to a concrete two-byte file and a
primitive satisfying the interface contract, every hypothesis discharged
there. -/
theorem encryptFile_decryptBlob_roundtrip_w :
    decryptBlob (fun c _ => some c)
      { name := encryptedFileName "a".data
        content := fileToBase64 "text/plain".data [72, 105] }
      "k".data = .ok [72, 105] :=
  encryptFile_decryptBlob_roundtrip (fun t _ => t) (fun c _ => some c)
    (fun _ _ => rfl)
    { name := "a".data, contentType := "text/plain".data
      content := [72, 105] }
    "k".data (by decide) (by decide) (by decide) _ rfl

end ShogunDrive
